import Mathlib

/-!
Verification of the Qt module resolution and deployment planning engine of
linuxdeploy-plugin-qt (src/main.cpp, src/util.cpp, src/util.h).

C++ strings that cross the OS boundary (file names, argv tokens, environment
values) are NUL-terminated, hence free of embedded NUL characters; we model
each such string as the `List Char` of its characters before the terminator.
`strncmp`/`strcmp` are modelled faithfully on that representation: running
off the end of a list corresponds to reaching the terminating NUL.
-/

namespace QtPlugin

/-- the C library function `strncmp(a, b, n)`: compares at most `n`
characters, stopping early at a string end (the NUL terminator); returns a
negative, zero or positive value. Only its zero-ness is used by the source. -/
def strncmp : List Char → List Char → Nat → Int
  | _, _, 0 => 0
  | [], [], _ + 1 => 0
  | [], _ :: _, _ + 1 => -1
  | _ :: _, [], _ + 1 => 1
  | a :: as, b :: bs, n + 1 =>
    if a = b then strncmp as bs n else if a < b then -1 else 1

/-- the C library function `strcmp(a, b)`. -/
def strcmp : List Char → List Char → Int
  | [], [] => 0
  | [], _ :: _ => -1
  | _ :: _, [] => 1
  | a :: as, b :: bs =>
    if a = b then strcmp as bs else if a < b then -1 else 1

/-- `std::getline`-driven splitting on a delimiter, as used by the source's
`stringSplit` lambda (util.cpp, queryQmake) and line reading: `getline`
consumes the delimiter; a trailing delimiter does not produce a trailing
empty part, and the empty string yields no parts at all. -/
def splitGetline (d : Char) : List Char → List (List Char)
  | [] => []
  | c :: cs =>
    if c = d then [] :: splitGetline d cs
    else
      match splitGetline d cs with
      | [] => [[c]]
      | t :: ts => (c :: t) :: ts

/-- shorthand turning a Lean string literal into the character-list model. -/
def str (s : String) : List Char := s.data

/-- a Qt module catalog entry (qt-modules.h): a canonical module name and the
library filename stem used for matching. -/
structure QtModule where
  name : List Char
  libraryFilePrefix : List Char
deriving DecidableEq

/-- `matchesQtModule` (main.cpp lines 105-126). The filesystem test
`boost::filesystem::is_regular_file` and the basename extraction
`boost::filesystem::path(...).filename()` are external library calls; they
are passed in as the abstract parameters `isRegularFile` and `basename`.
The prefix test is `strncmp(libraryName, module.libraryFilePrefix ++ ".",
(module.libraryFilePrefix ++ ".").size()) == 0`; the name test is
`strcmp(libraryName, module.name) == 0`. -/
def matchesQtModule (isRegularFile : List Char → Bool)
    (basename : List Char → List Char)
    (libraryName0 : List Char) (module : QtModule) : Bool :=
  let libraryName :=
    if isRegularFile libraryName0 then basename libraryName0 else libraryName0
  let libraryPre := module.libraryFilePrefix ++ ['.']
  if strncmp libraryName libraryPre libraryPre.length = 0 then true
  else if strcmp libraryName module.name = 0 then true
  else false

/-- `strStartsWith` (util.cpp lines 137-142). -/
def strStartsWith (s : List Char) (p : List Char) : Bool :=
  if s.length < p.length then false
  else strncmp s p p.length = 0

theorem strncmp_zero_iff_isPre (p : List Char) :
    ∀ s : List Char, strncmp s p p.length = 0 ↔ p <+: s := by
  induction p with
  | nil =>
    intro s
    simp [strncmp, List.nil_prefix]
  | cons b bs ih =>
    intro s
    cases s with
    | nil =>
      simp only [List.length_cons, strncmp]
      constructor
      · intro h
        exact absurd h (by decide)
      · intro h
        exact absurd h.length_le (by simp)
    | cons a as =>
      simp only [List.length_cons, strncmp]
      by_cases hab : a = b
      · subst hab
        rw [if_pos rfl, ih as]
        simp [List.cons_prefix_cons]
      · rw [if_neg hab]
        constructor
        · intro h
          split_ifs at h <;> exact absurd h (by decide)
        · intro h
          exact absurd (List.cons_prefix_cons.mp h).1.symm hab

theorem strcmp_zero_iff_eq : ∀ s t : List Char, strcmp s t = 0 ↔ s = t := by
  intro s
  induction s with
  | nil =>
    intro t
    cases t <;> simp [strcmp]
  | cons a as ih =>
    intro t
    cases t with
    | nil => simp [strcmp]
    | cons b bs =>
      simp only [strcmp]
      by_cases hab : a = b
      · subst hab
        rw [if_pos rfl, ih bs]
        simp
      · rw [if_neg hab]
        constructor
        · intro h
          split_ifs at h <;> exact absurd h (by decide)
        · intro h
          cases h
          exact absurd rfl hab

theorem strStartsWith_iff_isPre (s p : List Char) :
    strStartsWith s p = true ↔ p <+: s := by
  unfold strStartsWith
  by_cases h : s.length < p.length
  · rw [if_pos h]
    simp only [Bool.false_eq_true, false_iff]
    intro hp
    exact absurd hp.length_le (by omega)
  · rw [if_neg h]
    simp only [decide_eq_true_eq]
    exact strncmp_zero_iff_isPre p s

/-- C10: `strStartsWith str pre` returns true exactly when `pre` is a
prefix of `str`; in particular it returns false whenever `str` is shorter
than `pre`, and returns true for every `str` when `pre` is empty; it is
total, with no error on any input. -/
theorem strStartsWith_spec (s p : List Char) :
    (strStartsWith s p = true ↔ p <+: s) ∧
    (s.length < p.length → strStartsWith s p = false) ∧
    strStartsWith s [] = true := by
  refine ⟨strStartsWith_iff_isPre s p, ?_, ?_⟩
  · intro h
    unfold strStartsWith
    rw [if_pos h]
  · simp [strStartsWith, strncmp]

/-- C1: the module matcher returns true exactly when the candidate string,
reduced to its basename when it names an existing regular file, starts with
the module's library file prefix followed by a dot, or equals the module's
name; it returns false on every other input (the empty string included). -/
theorem matchesQtModule_iff (isRegularFile : List Char → Bool)
    (basename : List Char → List Char) (l : List Char) (m : QtModule) :
    matchesQtModule isRegularFile basename l m = true ↔
      ((m.libraryFilePrefix ++ ['.']) <+:
          (if isRegularFile l then basename l else l) ∨
        (if isRegularFile l then basename l else l) = m.name) := by
  simp only [matchesQtModule]
  rw [← strncmp_zero_iff_isPre (m.libraryFilePrefix ++ ['.'])
        (if isRegularFile l then basename l else l),
    ← strcmp_zero_iff_eq (if isRegularFile l then basename l else l) m.name]
  by_cases h1 : strncmp (if isRegularFile l then basename l else l)
      (m.libraryFilePrefix ++ ['.'])
      (m.libraryFilePrefix ++ ['.']).length = 0
  · rw [if_pos h1]
    simp only [List.length_append, List.length_cons, List.length_nil] at h1
    simp [h1]
  · rw [if_neg h1]
    by_cases h2 : strcmp (if isRegularFile l then basename l else l)
        m.name = 0
    · rw [if_pos h2]
      simp [h2]
    · rw [if_neg h2]
      simp only [List.length_append, List.length_cons, List.length_nil] at h1
      simp [h1, h2]

/-- the bundle library scan (main.cpp lines 128-134): every catalog module
matched by at least one entry of the library-name set, in catalog order
(`std::copy_if` over `QtModules`, `std::find_if` over the names). The
`std::set<std::string>` of library names is modelled as the list of its
elements; only membership is consumed. -/
def foundQtModules (catalog : List QtModule) (isRegularFile : List Char → Bool)
    (basename : List Char → List Char) (libraryNames : List (List Char)) :
    List QtModule :=
  catalog.filter (fun m =>
    libraryNames.any (fun l => matchesQtModule isRegularFile basename l m))

/-- the explicit-token scan (main.cpp lines 141-150): for each of the two
token sources in order — the `-p`/`--extra-plugin` CLI values, then the
tokens derived from `EXTRA_QT_PLUGINS` — `std::copy_if` appends every
catalog module matched by at least one token of that source. -/
def extraQtModules (catalog : List QtModule) (isRegularFile : List Char → Bool)
    (basename : List Char → List Char)
    (cliTokens envTokens : List (List Char)) : List QtModule :=
  catalog.filter (fun m =>
      cliTokens.any (fun t => matchesQtModule isRegularFile basename t m)) ++
    catalog.filter (fun m =>
      envTokens.any (fun t => matchesQtModule isRegularFile basename t m))

/-- main.cpp lines 216-218: the list handed to deployment is
`foundQtModules` followed by `extraQtModules` (`std::copy` with a back
inserter after copying `foundQtModules`). -/
def qtModulesToDeploy (catalog : List QtModule)
    (isRegularFile : List Char → Bool) (basename : List Char → List Char)
    (libraryNames cliTokens envTokens : List (List Char)) : List QtModule :=
  foundQtModules catalog isRegularFile basename libraryNames ++
    extraQtModules catalog isRegularFile basename cliTokens envTokens

/-- `std::map<std::string, std::string>` is modelled as an association list
with unique keys; `m[k] = v` inserts or overwrites in place. Iteration
order of the C++ map (sorted by key) is not modelled; no verified claim
consumes it. -/
def mapInsert (k v : List Char) :
    List (List Char × List Char) → List (List Char × List Char)
  | [] => [(k, v)]
  | (k', v') :: rest =>
    if k' = k then (k, v) :: rest else (k', v') :: mapInsert k v rest

/-- lookup in the association-list model of `std::map`. -/
def mapLookup (k : List Char) :
    List (List Char × List Char) → Option (List Char)
  | [] => none
  | (k', v') :: rest => if k' = k then some v' else mapLookup k rest

/-- `std::map::operator[]` read (main.cpp lines 194-200): a missing key
yields a default-constructed, i.e. empty, string. -/
def lookupDefault (k : List Char) (m : List (List Char × List Char)) :
    List Char :=
  (mapLookup k m).getD []

/-- the parsing loop of `queryQmake` (util.cpp lines 54-84): the standard
output of `qmake -query` is read line by line with `std::getline`; each
line is split on `':'` by the `stringSplit` lambda (also `std::getline`
based); lines not yielding exactly two parts are skipped; the rest are
stored with `rv[parts[0]] = parts[1]`. -/
def parseQmakeOutput (out : List Char) : List (List Char × List Char) :=
  (splitGetline '\n' out).foldl
    (fun rv line =>
      match splitGetline ':' line with
      | [k, v] => mapInsert k v rv
      | _ => rv) []

/-- the seven installation paths read in main.cpp lines 194-200, in source
order: plugins, libexecs, data, translations, bins, libs, QML imports. -/
def extractQtPaths (vars : List (List Char × List Char)) : List (List Char) :=
  [lookupDefault (str "QT_INSTALL_PLUGINS") vars,
   lookupDefault (str "QT_INSTALL_LIBEXECS") vars,
   lookupDefault (str "QT_INSTALL_DATA") vars,
   lookupDefault (str "QT_INSTALL_TRANSLATIONS") vars,
   lookupDefault (str "QT_INSTALL_BINS") vars,
   lookupDefault (str "QT_INSTALL_LIBS") vars,
   lookupDefault (str "QT_INSTALL_QML") vars]

/-- the NUL terminator of a C string. -/
def nulChar : Char := Char.ofNat 0

/-- main.cpp line 139: `split(std::string(extraPluginsFromEnvData, ';'))`.
`std::string(const char*, size_type)` is the pointer-plus-count
constructor, so the character literal `';'` is converted to the count 59:
the constructed string is the first 59 bytes of the environment buffer
(the value's characters followed by its NUL terminator), which is
undefined behaviour — modelled as `none` — unless the buffer holds at
least 59 bytes. No delimiter argument reaches `split`
(`linuxdeploy::util::split`, an external library function taking a string
and a defaulted delimiter, modelled by the abstract parameter `split`
because the delimiter the call supplies it is none at all). -/
def extraPluginsFromEnv (split : List Char → List (List Char))
    (v : List Char) : Option (List (List Char)) :=
  if 59 ≤ v.length + 1 then some (split ((v ++ [nulChar]).take 59)) else none

/-- the calls main() makes after module resolution, in program order; a
`deployCall i j` is the `deploy()` call of the `j`-th deployer of the
`i`-th module of the deployment list (main.cpp lines 229-237),
`translationsCall` is `deployTranslations` (line 240), `deferredOpsCall`
is `executeDeferredOperations` (line 246), `qtConfCall` is `createQtConf`
(line 252), `appRunHookCall` is `createAppRunHook` (line 258). -/
inductive Ev where
  | deployCall (moduleIdx deployerIdx : Nat)
  | translationsCall
  | deferredOpsCall
  | qtConfCall
  | appRunHookCall
deriving DecidableEq

/-- the inner deployer loop (main.cpp lines 234-236) over one module's
deployer outcomes: returns how many `deploy()` calls were made and whether
all of them succeeded; the loop stops at (and includes) the first failing
call. -/
def runModuleDeployers : List Bool → Nat × Bool
  | [] => (0, true)
  | r :: rs =>
    if r then
      let p := runModuleDeployers rs
      (p.1 + 1, p.2)
    else (1, false)

/-- the outer deployment loop (main.cpp lines 229-237): modules are
processed in list order; each module's deployers are obtained from the
factory by module name (`deployersOf`) and run in order; a failing
`deploy()` makes main return 1 at once. `i` is the index of the first
module of the remaining list within the full deployment list; the trace
records every `deploy()` call made. -/
def runDeployLoop (deployersOf : List Char → List Bool) :
    List QtModule → Nat → List Ev × Bool
  | [], _ => ([], true)
  | m :: ms, i =>
    let p := runModuleDeployers (deployersOf m.name)
    let evs := (List.range p.1).map (fun j => Ev.deployCall i j)
    if p.2 then
      let q := runDeployLoop deployersOf ms (i + 1)
      (evs ++ q.1, q.2)
    else (evs, false)

/-- main.cpp lines 229-264: the deployment loop followed by the translation
deployment, the deferred-operation flush, qt.conf creation and AppRun-hook
creation, each of which aborts with exit status 1 on failure; outcomes of
the four trailing external calls are the four Bool parameters. Returns the
trace of calls made and main's exit status. -/
def runExecutor (deployersOf : List Char → List Bool) (ms : List QtModule)
    (translationsOk deferredOk qtConfOk appRunOk : Bool) : List Ev × Nat :=
  let p := runDeployLoop deployersOf ms 0
  if !p.2 then (p.1, 1)
  else
    let evs1 := p.1 ++ [Ev.translationsCall]
    if !translationsOk then (evs1, 1)
    else
      let evs2 := evs1 ++ [Ev.deferredOpsCall]
      if !deferredOk then (evs2, 1)
      else
        let evs3 := evs2 ++ [Ev.qtConfCall]
        if !qtConfOk then (evs3, 1)
        else
          let evs4 := evs3 ++ [Ev.appRunHookCall]
          if !appRunOk then (evs4, 1) else (evs4, 0)

/-- main.cpp lines 173-264: everything main() does once the resolved module
lists are at hand — the qmake discovery checks of lines 175-183 (their
outcomes abstracted as the two Bool parameters), the empty-query check of
line 189, then the executor on the concatenated deployment list. -/
def mainAfterResolution (found extra : List QtModule)
    (qmakeNonempty qmakeExists : Bool)
    (qmakeVars : List (List Char × List Char))
    (deployersOf : List Char → List Bool)
    (translationsOk deferredOk qtConfOk appRunOk : Bool) : List Ev × Nat :=
  if !qmakeNonempty then ([], 1)
  else if !qmakeExists then ([], 1)
  else if qmakeVars.isEmpty then ([], 1)
  else
    runExecutor deployersOf (found ++ extra)
      translationsOk deferredOk qtConfOk appRunOk

/-- main.cpp lines 102-264 from module resolution onward: resolution of
`foundQtModules`/`extraQtModules`, the nothing-to-deploy check (line 168),
then `mainAfterResolution`. Environment-variable rewriting and logging
have no bearing on the trace or the exit status and are not modelled. -/
def mainModel (catalog : List QtModule) (isRegularFile : List Char → Bool)
    (basename : List Char → List Char)
    (libraryNames cliTokens envTokens : List (List Char))
    (qmakeNonempty qmakeExists : Bool)
    (qmakeVars : List (List Char × List Char))
    (deployersOf : List Char → List Bool)
    (translationsOk deferredOk qtConfOk appRunOk : Bool) : List Ev × Nat :=
  let found := foundQtModules catalog isRegularFile basename libraryNames
  let extra := extraQtModules catalog isRegularFile basename cliTokens envTokens
  if found.isEmpty && extra.isEmpty then ([], 1)
  else
    mainAfterResolution found extra qmakeNonempty qmakeExists qmakeVars
      deployersOf translationsOk deferredOk qtConfOk appRunOk

/-- the total number of characters a part list accounts for when its parts
were cut out of a string by a single-character delimiter: part lengths plus
one delimiter (or string end) per part. -/
def partsMeasure (ts : List (List Char)) : Nat :=
  (ts.map List.length).sum + ts.length

theorem partsMeasure_splitGetline_le (d : Char) :
    ∀ s : List Char, partsMeasure (splitGetline d s) ≤ s.length + 1 := by
  intro s
  induction s with
  | nil => simp [splitGetline, partsMeasure]
  | cons c cs ih =>
    simp only [splitGetline]
    by_cases hc : c = d
    · rw [if_pos hc]
      simp only [partsMeasure, List.map_cons, List.sum_cons, List.length_cons,
        List.length_nil] at *
      omega
    · rw [if_neg hc]
      cases hsp : splitGetline d cs with
      | nil => simp [partsMeasure]
      | cons t ts =>
        rw [hsp] at ih
        simp only [partsMeasure, List.map_cons, List.sum_cons,
          List.length_cons] at *
        omega

/-- the value `EXTRA_QT_PLUGINS="sqlite;webenginecore"` of the spec's
end-to-end example. -/
def envExampleValue : List Char := str "sqlite;webenginecore"

/-- a 62-character `EXTRA_QT_PLUGINS` value, long enough for the source's
59-byte read to stay inside the environment buffer. -/
def envLongValue : List Char :=
  str "sqlite;webenginecore;sqlite;webenginecore;sqlite;webenginecore"

/-- C2 (code bug): the `EXTRA_QT_PLUGINS` value is never split on `';'`.
Whatever single-character delimiter the external `split` defaults to, on
the spec's own example value the constructor read runs past the end of the
environment buffer (undefined behaviour, modelled as `none`), and on a
value long enough to be read safely the tokens obtained differ from the
semicolon-split the claim demands, because only 59 of the 62 characters
reach `split`. -/
theorem extraPluginsFromEnv_never_splits_on_semicolon :
    (∀ d : Char,
      extraPluginsFromEnv (splitGetline d) envExampleValue = none) ∧
    (∀ d : Char,
      extraPluginsFromEnv (splitGetline d) envLongValue ≠
        some (splitGetline ';' envLongValue)) := by
  constructor
  · intro d
    rw [extraPluginsFromEnv, if_neg (by decide)]
  · intro d h
    rw [extraPluginsFromEnv, if_pos (by decide)] at h
    have hAB : splitGetline d ((envLongValue ++ [nulChar]).take 59) =
        splitGetline ';' envLongValue := Option.some.inj h
    have h1 : partsMeasure (splitGetline d ((envLongValue ++ [nulChar]).take 59)) ≤
        ((envLongValue ++ [nulChar]).take 59).length + 1 :=
      partsMeasure_splitGetline_le d _
    rw [hAB] at h1
    have h2 : partsMeasure (splitGetline ';' envLongValue) = 63 := by decide
    have h3 : ((envLongValue ++ [nulChar]).take 59).length = 59 := by decide
    omega

/-- the spec's build-tool query parsing example input. -/
def qmakeOutputExample : List Char :=
  str "QT_INSTALL_LIBS:/opt/qt/lib\nmalformed_line\nQT_INSTALL_BINS:/opt/qt/bin"

theorem parseQmakeOutput_example (k : List Char) :
    mapLookup k (parseQmakeOutput qmakeOutputExample) =
      if k = str "QT_INSTALL_LIBS" then some (str "/opt/qt/lib")
      else if k = str "QT_INSTALL_BINS" then some (str "/opt/qt/bin")
      else none := by
  rw [show parseQmakeOutput qmakeOutputExample =
      [(str "QT_INSTALL_LIBS", str "/opt/qt/lib"),
       (str "QT_INSTALL_BINS", str "/opt/qt/bin")] from by decide]
  by_cases h1 : k = str "QT_INSTALL_LIBS"
  · subst h1
    decide
  · by_cases h2 : k = str "QT_INSTALL_BINS"
    · subst h2
      decide
    · simp [mapLookup, h1, h2, Ne.symm h1, Ne.symm h2]

/-- the well-formed `key:value` entries of a query output, in line order:
the lines that split into exactly two colon-delimited parts. -/
def qmakeEntries (out : List Char) : List (List Char × List Char) :=
  (splitGetline '\n' out).filterMap (fun line =>
    match splitGetline ':' line with
    | [k, v] => some (k, v)
    | _ => none)

theorem mapLookup_mapInsert (k a b : List Char)
    (m : List (List Char × List Char)) :
    mapLookup k (mapInsert a b m) =
      if a = k then some b else mapLookup k m := by
  induction m with
  | nil => simp [mapInsert, mapLookup]
  | cons p rest ih =>
    obtain ⟨k', v'⟩ := p
    simp only [mapInsert]
    by_cases h : k' = a
    · subst h
      rw [if_pos rfl]
      simp only [mapLookup]
      by_cases hk : k' = k <;> simp [hk]
    · rw [if_neg h]
      simp only [mapLookup]
      by_cases h2 : k' = k
      · subst h2
        rw [if_pos rfl, if_neg (fun hak => h hak.symm), if_pos rfl]
      · rw [if_neg h2, if_neg h2, ih]

theorem mapLookup_foldl_insert (k : List Char) :
    ∀ (ps m : List (List Char × List Char)),
      mapLookup k (ps.foldl (fun acc p => mapInsert p.1 p.2 acc) m) =
        match ps.reverse.find? (fun p => decide (p.1 = k)) with
        | some p => some p.2
        | none => mapLookup k m := by
  intro ps
  induction ps with
  | nil =>
    intro m
    simp [List.find?]
  | cons p rest ih =>
    intro m
    simp only [List.foldl_cons, List.reverse_cons]
    rw [ih (mapInsert p.1 p.2 m), List.find?_append]
    cases hf : rest.reverse.find? (fun q => decide (q.1 = k)) with
    | some q => rfl
    | none =>
      rw [mapLookup_mapInsert]
      by_cases hpk : p.1 = k
      · simp [List.find?, hpk]
      · simp [List.find?, hpk]

theorem parseQmakeOutput_eq_foldl (out : List Char) :
    parseQmakeOutput out =
      (qmakeEntries out).foldl (fun acc p => mapInsert p.1 p.2 acc) [] := by
  unfold parseQmakeOutput qmakeEntries
  generalize splitGetline '\n' out = lines
  suffices h : ∀ acc : List (List Char × List Char),
      lines.foldl (fun rv line =>
        match splitGetline ':' line with
        | [k, v] => mapInsert k v rv
        | _ => rv) acc =
      (lines.filterMap fun line =>
        match splitGetline ':' line with
        | [k, v] => some (k, v)
        | _ => none).foldl (fun acc p => mapInsert p.1 p.2 acc) acc from h []
  induction lines with
  | nil =>
    intro acc
    rfl
  | cons l ls ih =>
    intro acc
    simp only [List.foldl_cons, List.filterMap_cons]
    cases hs : splitGetline ':' l with
    | nil => simpa using ih acc
    | cons a rest =>
      cases rest with
      | nil => simpa using ih acc
      | cons b rest2 =>
        cases rest2 with
        | nil => simpa using ih (mapInsert a b acc)
        | cons c rest3 => simpa using ih acc

/-- C7: parsing the build-tool query output keeps exactly the lines that
split into exactly two colon-delimited parts, as key/value entries in line
order, and silently drops all other lines; in particular the example
output parses to exactly the lookup holding
`QT_INSTALL_LIBS "/opt/qt/lib"` and `QT_INSTALL_BINS "/opt/qt/bin"`. -/
theorem parseQmakeOutput_spec :
    (∀ out : List Char,
      parseQmakeOutput out =
        (qmakeEntries out).foldl (fun acc p => mapInsert p.1 p.2 acc) []) ∧
    (∀ k : List Char,
      mapLookup k (parseQmakeOutput qmakeOutputExample) =
        if k = str "QT_INSTALL_LIBS" then some (str "/opt/qt/lib")
        else if k = str "QT_INSTALL_BINS" then some (str "/opt/qt/bin")
        else none) :=
  ⟨parseQmakeOutput_eq_foldl, parseQmakeOutput_example⟩

/-- C9: when the query output holds several well-formed `key:value` lines
with the same key, the parsed lookup maps that key to the value of the
last such line — looking any key up in the parse result returns the second
component of the last well-formed entry carrying that key. -/
theorem parseQmakeOutput_last_entry_wins (out k : List Char) :
    mapLookup k (parseQmakeOutput out) =
      ((qmakeEntries out).reverse.find? (fun p => decide (p.1 = k))).map
        Prod.snd := by
  rw [parseQmakeOutput_eq_foldl, mapLookup_foldl_insert]
  cases hf : (qmakeEntries out).reverse.find? (fun p => decide (p.1 = k)) with
  | some p => rfl
  | none => rfl

/-- C8: the list handed to deployment is in a fixed deterministic order —
all found modules precede all extra modules; the found list, the CLI-source
block of the extra list and the environment-source block after it are each
order-preserving sublists of the catalog, i.e. in catalog order. -/
theorem qtModulesToDeploy_ordering (catalog : List QtModule)
    (isRegularFile : List Char → Bool) (basename : List Char → List Char)
    (libraryNames cliTokens envTokens : List (List Char)) :
    qtModulesToDeploy catalog isRegularFile basename libraryNames cliTokens
        envTokens =
      foundQtModules catalog isRegularFile basename libraryNames ++
        (catalog.filter (fun m =>
            cliTokens.any fun t => matchesQtModule isRegularFile basename t m) ++
          catalog.filter (fun m =>
            envTokens.any fun t => matchesQtModule isRegularFile basename t m)) ∧
    List.Sublist
      (foundQtModules catalog isRegularFile basename libraryNames) catalog ∧
    List.Sublist
      (catalog.filter fun m =>
        cliTokens.any fun t => matchesQtModule isRegularFile basename t m)
      catalog ∧
    List.Sublist
      (catalog.filter fun m =>
        envTokens.any fun t => matchesQtModule isRegularFile basename t m)
      catalog := by
  refine ⟨rfl, ?_, List.filter_sublist _, List.filter_sublist _⟩
  unfold foundQtModules
  exact List.filter_sublist _

theorem count_filter_eq {α : Type} [DecidableEq α] (p : α → Bool) (m : α)
    (l : List α) :
    (l.filter p).count m = if p m = true then l.count m else 0 := by
  by_cases hpm : p m = true
  · rw [if_pos hpm, List.count_filter hpm]
  · rw [if_neg hpm, List.count_eq_zero_of_not_mem]
    intro hmem
    exact hpm (List.mem_filter.mp hmem).2

/-- C5 (amended): the found and extra lists are computed independently and
never deduplicated against each other. For a module occurring once in the
catalog: it appears in the found list exactly once when some library name
matches it and not at all otherwise; it appears in the extra list once per
matching token source, the CLI source and the environment source counted
separately; and its multiplicity in the concatenated deployment list is
the exact sum of its multiplicities in found and extra — so a module
matched by the library closure and by exactly one token source appears
twice in the deployment list, and one matched by the closure and by both
token sources appears three times. -/
theorem foundExtra_never_dedup (catalog : List QtModule)
    (isRegularFile : List Char → Bool) (basename : List Char → List Char)
    (libraryNames cliTokens envTokens : List (List Char)) (m : QtModule)
    (hcat : catalog.count m = 1) :
    (foundQtModules catalog isRegularFile basename libraryNames).count m =
      (if libraryNames.any (fun l => matchesQtModule isRegularFile basename l m)
       then 1 else 0) ∧
    (extraQtModules catalog isRegularFile basename cliTokens envTokens).count
        m =
      (if cliTokens.any (fun t => matchesQtModule isRegularFile basename t m)
       then 1 else 0) +
      (if envTokens.any (fun t => matchesQtModule isRegularFile basename t m)
       then 1 else 0) ∧
    (qtModulesToDeploy catalog isRegularFile basename libraryNames cliTokens
        envTokens).count m =
      (foundQtModules catalog isRegularFile basename libraryNames).count m +
      (extraQtModules catalog isRegularFile basename cliTokens
        envTokens).count m := by
  refine ⟨?_, ?_, ?_⟩
  · rw [foundQtModules, count_filter_eq, hcat]
  · rw [extraQtModules, List.count_append, count_filter_eq, count_filter_eq,
      hcat]
  · rw [qtModulesToDeploy, List.count_append]

/-- the sql-sqlite-style one-module catalog used for concrete runs. -/
def svgModule : QtModule := ⟨str "svg", str "libQt5Svg"⟩

/-- a filesystem on which no candidate names an existing regular file. -/
def noFile : List Char → Bool := fun _ => false

/-- the identity basename reduction (never consulted under `noFile`). -/
def idBasename : List Char → List Char := fun l => l

/-- C5 witness data: with catalog `[svg]`, the library name
`libQt5Svg.so.5`, the CLI token `svg` and no environment tokens, the
module appears once in found, once in extra and twice in the deployment
list. -/
theorem foundExtra_never_dedup_witness :
    ([svgModule].count svgModule = 1) ∧
    ((foundQtModules [svgModule] noFile idBasename
        [str "libQt5Svg.so.5"]).count svgModule =
      (if [str "libQt5Svg.so.5"].any
          (fun l => matchesQtModule noFile idBasename l svgModule)
       then 1 else 0) ∧
    (extraQtModules [svgModule] noFile idBasename [str "svg"]
        []).count svgModule =
      (if [str "svg"].any
          (fun t => matchesQtModule noFile idBasename t svgModule)
       then 1 else 0) +
      (if ([] : List (List Char)).any
          (fun t => matchesQtModule noFile idBasename t svgModule)
       then 1 else 0) ∧
    (qtModulesToDeploy [svgModule] noFile idBasename [str "libQt5Svg.so.5"]
        [str "svg"] []).count svgModule =
      (foundQtModules [svgModule] noFile idBasename
        [str "libQt5Svg.so.5"]).count svgModule +
      (extraQtModules [svgModule] noFile idBasename [str "svg"]
        []).count svgModule) :=
  ⟨by decide,
    foundExtra_never_dedup [svgModule] noFile idBasename
      [str "libQt5Svg.so.5"] [str "svg"] [] svgModule (by decide)⟩

/-- C5 (counterexample): a module matched by the library closure and by
explicit tokens of both sources — the CLI token list and the environment
token list each hold a matching token — appears twice in the extra list
and three times in the concatenated deployment list, not "exactly once in
extra" and not exactly twice in the concatenation. -/
theorem foundExtra_dedup_counterexample :
    (foundQtModules [svgModule] noFile idBasename
      [str "libQt5Svg.so.5"]).count svgModule = 1 ∧
    (extraQtModules [svgModule] noFile idBasename [str "svg"]
      [str "svg"]).count svgModule = 2 ∧
    (qtModulesToDeploy [svgModule] noFile idBasename [str "libQt5Svg.so.5"]
      [str "svg"] [str "svg"]).count svgModule = 3 := by decide

/-- C6: when the library-name set and both explicit token sources are
empty, resolution yields two empty lists and the run exits with status 1
having made no deployment call at all; and the resolution check is fatal
in exactly one case — when both resolved lists are empty — since otherwise
the run proceeds to the post-resolution stages. -/
theorem resolution_empty_fatal (catalog : List QtModule)
    (isRegularFile : List Char → Bool) (basename : List Char → List Char)
    (qmakeNonempty qmakeExists : Bool)
    (qmakeVars : List (List Char × List Char))
    (deployersOf : List Char → List Bool)
    (translationsOk deferredOk qtConfOk appRunOk : Bool) :
    (foundQtModules catalog isRegularFile basename [] = [] ∧
     extraQtModules catalog isRegularFile basename [] [] = [] ∧
     mainModel catalog isRegularFile basename [] [] [] qmakeNonempty
       qmakeExists qmakeVars deployersOf translationsOk deferredOk qtConfOk
       appRunOk = ([], 1)) ∧
    (∀ libraryNames cliTokens envTokens : List (List Char),
      ¬(foundQtModules catalog isRegularFile basename libraryNames = [] ∧
        extraQtModules catalog isRegularFile basename cliTokens envTokens =
          []) →
      mainModel catalog isRegularFile basename libraryNames cliTokens
          envTokens qmakeNonempty qmakeExists qmakeVars deployersOf
          translationsOk deferredOk qtConfOk appRunOk =
        mainAfterResolution
          (foundQtModules catalog isRegularFile basename libraryNames)
          (extraQtModules catalog isRegularFile basename cliTokens envTokens)
          qmakeNonempty qmakeExists qmakeVars deployersOf translationsOk
          deferredOk qtConfOk appRunOk) := by
  constructor
  · have hf : foundQtModules catalog isRegularFile basename [] = [] := by
      simp [foundQtModules]
    have he : extraQtModules catalog isRegularFile basename [] [] = [] := by
      simp [extraQtModules]
    refine ⟨hf, he, ?_⟩
    simp [mainModel, hf, he]
  · intro libraryNames cliTokens envTokens h
    simp only [mainModel]
    rw [if_neg]
    simp only [Bool.and_eq_true, List.isEmpty_iff]
    exact h

theorem runModuleDeployers_ok_iff (rs : List Bool) :
    (runModuleDeployers rs).2 = true ↔ false ∉ rs := by
  induction rs with
  | nil => simp [runModuleDeployers]
  | cons r rs ih =>
    cases r
    · simp [runModuleDeployers]
    · simp [runModuleDeployers, ih]

theorem runDeployLoop_trace_deploys (d : List Char → List Bool) :
    ∀ (ms : List QtModule) (i0 : Nat) (e : Ev),
      e ∈ (runDeployLoop d ms i0).1 → ∃ k j, e = Ev.deployCall k j := by
  intro ms
  induction ms with
  | nil =>
    intro i0 e he
    simp [runDeployLoop] at he
  | cons m rest ih =>
    intro i0 e he
    simp only [runDeployLoop] at he
    by_cases hok : (runModuleDeployers (d m.name)).2 = true
    · rw [if_pos hok] at he
      rcases List.mem_append.mp he with h | h
      · obtain ⟨j, _, hj⟩ := List.mem_map.mp h
        exact ⟨i0, j, hj.symm⟩
      · exact ih (i0 + 1) e h
    · rw [if_neg hok] at he
      obtain ⟨j, _, hj⟩ := List.mem_map.mp he
      exact ⟨i0, j, hj.symm⟩

theorem runDeployLoop_first_fail (d : List Char → List Bool) :
    ∀ (ms : List QtModule) (i0 i : Nat) (m : QtModule),
      ms[i]? = some m →
      false ∈ d m.name →
      (∀ m' ∈ ms.take i, false ∉ d m'.name) →
      (runDeployLoop d ms i0).2 = false ∧
      ∀ k j, Ev.deployCall k j ∈ (runDeployLoop d ms i0).1 → k ≤ i0 + i := by
  intro ms
  induction ms with
  | nil =>
    intro i0 i m hget
    simp at hget
  | cons m0 rest ih =>
    intro i0 i m hget hfail hfirst
    cases i with
    | zero =>
      have hm : m0 = m := by simpa using hget
      subst hm
      have hok : ¬((runModuleDeployers (d m0.name)).2 = true) := by
        rw [runModuleDeployers_ok_iff]
        exact fun hno => hno hfail
      simp only [runDeployLoop]
      rw [if_neg hok]
      refine ⟨rfl, ?_⟩
      intro k j hk
      obtain ⟨j', _, he⟩ := List.mem_map.mp hk
      injection he with h1 h2
      omega
    | succ i' =>
      have h0 : false ∉ d m0.name := hfirst m0 (by simp)
      have hok : (runModuleDeployers (d m0.name)).2 = true :=
        (runModuleDeployers_ok_iff _).mpr h0
      have hget' : rest[i']? = some m := by simpa using hget
      have hfirst' : ∀ m' ∈ rest.take i', false ∉ d m'.name := by
        intro m' hm'
        exact hfirst m' (by simp [hm'])
      obtain ⟨ih1, ih2⟩ := ih (i0 + 1) i' m hget' hfail hfirst'
      simp only [runDeployLoop]
      rw [if_pos hok]
      refine ⟨ih1, ?_⟩
      intro k j hk
      rcases List.mem_append.mp hk with h | h
      · obtain ⟨j', _, he⟩ := List.mem_map.mp h
        injection he with h1 h2
        omega
      · have := ih2 k j h
        omega

/-- C4: executor fail-fast. If the deployment list's first failing module
sits at index `i` — its deployer outcomes contain a failure while every
earlier module's deployers all succeed — then the executor returns exit
status 1, the deferred-operation flush is never called, and no deploy call
of any module beyond index `i` is ever made. -/
theorem runExecutor_fail_fast (deployersOf : List Char → List Bool)
    (ms : List QtModule) (translationsOk deferredOk qtConfOk appRunOk : Bool)
    (i : Nat) (m : QtModule)
    (hget : ms[i]? = some m)
    (hfail : false ∈ deployersOf m.name)
    (hfirst : ∀ m' ∈ ms.take i, false ∉ deployersOf m'.name) :
    (runExecutor deployersOf ms translationsOk deferredOk qtConfOk
        appRunOk).2 = 1 ∧
    Ev.deferredOpsCall ∉
      (runExecutor deployersOf ms translationsOk deferredOk qtConfOk
        appRunOk).1 ∧
    ∀ k j,
      Ev.deployCall k j ∈
          (runExecutor deployersOf ms translationsOk deferredOk qtConfOk
            appRunOk).1 →
        k ≤ i := by
  obtain ⟨h2, hbound⟩ :=
    runDeployLoop_first_fail deployersOf ms 0 i m hget hfail hfirst
  have hexec : runExecutor deployersOf ms translationsOk deferredOk qtConfOk
      appRunOk = ((runDeployLoop deployersOf ms 0).1, 1) := by
    simp [runExecutor, h2]
  rw [hexec]
  refine ⟨rfl, ?_, ?_⟩
  · intro hmem
    obtain ⟨k, j, he⟩ :=
      runDeployLoop_trace_deploys deployersOf ms 0 Ev.deferredOpsCall hmem
    simp at he
  · intro k j hk
    simpa using hbound k j hk

/-- the deployer-outcome table of the concrete fail-fast run: module `b`
has a failing first deployer, every other module a single succeeding one. -/
def deployersExample : List Char → List Bool := fun n =>
  if n = str "b" then [false, true] else [true]

/-- C4 witness: on the module list `[a, b, c]` with `b`'s first deployer
failing, the executor exits 1, never flushes, and makes no deploy call
for module index 2. -/
theorem runExecutor_fail_fast_witness :
    (runExecutor deployersExample
        [⟨str "a", str "libA"⟩, ⟨str "b", str "libB"⟩, ⟨str "c", str "libC"⟩]
        true true true true).2 = 1 ∧
    Ev.deferredOpsCall ∉
      (runExecutor deployersExample
        [⟨str "a", str "libA"⟩, ⟨str "b", str "libB"⟩, ⟨str "c", str "libC"⟩]
        true true true true).1 ∧
    ∀ k j,
      Ev.deployCall k j ∈
          (runExecutor deployersExample
            [⟨str "a", str "libA"⟩, ⟨str "b", str "libB"⟩,
              ⟨str "c", str "libC"⟩]
            true true true true).1 →
        k ≤ 1 :=
  runExecutor_fail_fast deployersExample
    [⟨str "a", str "libA"⟩, ⟨str "b", str "libB"⟩, ⟨str "c", str "libC"⟩]
    true true true true 1 ⟨str "b", str "libB"⟩ (by decide) (by decide)
    (by decide)

/-- C3 (amended): the post-query stage aborts only on an entirely empty
lookup: with an empty query result the run exits 1 without a single call;
a missing key in a non-empty lookup is read by `std::map::operator[]` as
the empty path instead of stopping the run. -/
theorem qmakeVars_empty_only_fatal (catalog : List QtModule)
    (isRegularFile : List Char → Bool) (basename : List Char → List Char)
    (libraryNames cliTokens envTokens : List (List Char))
    (qmakeNonempty qmakeExists : Bool) (deployersOf : List Char → List Bool)
    (translationsOk deferredOk qtConfOk appRunOk : Bool) :
    mainModel catalog isRegularFile basename libraryNames cliTokens envTokens
        qmakeNonempty qmakeExists [] deployersOf translationsOk deferredOk
        qtConfOk appRunOk = ([], 1) ∧
    (∀ (vars : List (List Char × List Char)) (k : List Char),
      mapLookup k vars = none → lookupDefault k vars = []) := by
  constructor
  · simp only [mainModel, mainAfterResolution]
    split_ifs with h1 h2 h3 h4 <;> first | rfl | (exfalso; simp_all)
  · intro vars k h
    rw [lookupDefault, h]
    rfl

/-- C3 witness: with an empty query lookup the run exits 1 having made no
call; the key `QT_INSTALL_PLUGINS`, absent from a one-entry lookup, is
read as the empty path. -/
theorem qmakeVars_empty_only_fatal_witness :
    mainModel [svgModule] noFile idBasename [] [str "svg"] [] true true []
        (fun _ => [true]) true true true true = ([], 1) ∧
    (mapLookup (str "QT_INSTALL_PLUGINS")
        [(str "QT_INSTALL_LIBS", str "/opt/qt/lib")] = none ∧
      lookupDefault (str "QT_INSTALL_PLUGINS")
        [(str "QT_INSTALL_LIBS", str "/opt/qt/lib")] = []) :=
  ⟨(qmakeVars_empty_only_fatal [svgModule] noFile idBasename [] [str "svg"]
      [] true true (fun _ => [true]) true true true true).1,
    by decide,
    (qmakeVars_empty_only_fatal [svgModule] noFile idBasename [] [str "svg"]
      [] true true (fun _ => [true]) true true true true).2 _ _ (by decide)⟩

/-- C3 (counterexample): a non-empty query lookup that lacks the required
`QT_INSTALL_PLUGINS` key (and five of the other required keys) does not
make the run fail before deployment: the run performs a deploy call and
exits 0. -/
theorem qmakeVars_missing_key_not_fatal :
    mapLookup (str "QT_INSTALL_PLUGINS")
        [(str "QT_INSTALL_LIBS", str "/opt/qt/lib")] = none ∧
    mainModel [svgModule] noFile idBasename [] [str "svg"] [] true true
        [(str "QT_INSTALL_LIBS", str "/opt/qt/lib")] (fun _ => [true])
        true true true true =
      ([Ev.deployCall 0 0, Ev.translationsCall, Ev.deferredOpsCall,
        Ev.qtConfCall, Ev.appRunHookCall], 0) := by decide

/-- C6 witness: with every input source empty, resolution yields two empty
lists and the run exits 1 with no calls; with a matching CLI token the
resolution check passes and the run continues into the post-resolution
stage. -/
theorem resolution_empty_fatal_witness :
    (foundQtModules [svgModule] noFile idBasename [] = [] ∧
     extraQtModules [svgModule] noFile idBasename [] [] = [] ∧
     mainModel [svgModule] noFile idBasename [] [] [] true true
       [(str "QT_INSTALL_LIBS", str "/opt/qt/lib")] (fun _ => [true])
       true true true true = ([], 1)) ∧
    (¬(foundQtModules [svgModule] noFile idBasename [] = [] ∧
       extraQtModules [svgModule] noFile idBasename [str "svg"] [] = []) ∧
     mainModel [svgModule] noFile idBasename [] [str "svg"] [] true true
         [(str "QT_INSTALL_LIBS", str "/opt/qt/lib")] (fun _ => [true]) true
         true true true =
       mainAfterResolution
         (foundQtModules [svgModule] noFile idBasename [])
         (extraQtModules [svgModule] noFile idBasename [str "svg"] [])
         true true [(str "QT_INSTALL_LIBS", str "/opt/qt/lib")]
         (fun _ => [true]) true true true true) :=
  ⟨(resolution_empty_fatal [svgModule] noFile idBasename true true
      [(str "QT_INSTALL_LIBS", str "/opt/qt/lib")] (fun _ => [true]) true
      true true true).1,
    by decide,
    (resolution_empty_fatal [svgModule] noFile idBasename true true
      [(str "QT_INSTALL_LIBS", str "/opt/qt/lib")] (fun _ => [true]) true
      true true true).2 [] [str "svg"] [] (by decide)⟩

end QtPlugin
